/-
Verification development for the LASSI transition-density-matrix engine
(my_pyscf/mcscf/lassi_op.py) and the adjacent functional-identifier utility
(my_pyscf/mcpdft/_libxc.py).

The Python source is shallowly embedded below.  ndarray entries are modelled
as integers (hop counts), naturals (counts, cardinalities) or elements of a
star ring (amplitudes); numpy axis-permutation and subscript validity is
modelled by a small shape layer, because several lines of the source perform
rank-mismatched operations that numpy rejects at run time.  Line numbers in
the comments refer to lassi_op.py unless stated otherwise.
-/
import Mathlib

/-! ## Numpy shape layer

`ndarray.transpose (axes)` requires `axes` to be a permutation of
`range (ndim)`; `a[i0, ..., ik] = v` requires at most `ndim` subscripts.
Only validity is modelled here; valid operations on concrete data are
modelled directly as functions elsewhere in this file. -/

/-- Validity of `arr.transpose (axes)` for an array of rank `ndim`:
`axes` must list each axis below `ndim` exactly once. -/
def npTransposeValid (ndim : ℕ) (axes : List ℕ) : Bool :=
  decide (axes.length = ndim) && decide (axes.Nodup) && decide (∀ a ∈ axes, a < ndim)

/-- Validity of a basic subscript assignment `arr[s0, ..., s(nsub-1)] = v`
on an array of rank `ndim`: numpy raises when more subscripts are given
than the array has axes. -/
def npSubscriptCountValid (ndim nsub : ℕ) : Bool :=
  decide (nsub ≤ ndim)

/-- Shape of `tdm1s` allocated at line 231: `(nroots, nroots, 2, ncas, ncas)`. -/
def tdm1s_shape (nroots ncas : ℕ) : List ℕ := [nroots, nroots, 2, ncas, ncas]

/-- Shape of `tdm2s` allocated at line 232:
`(nroots, nroots, 4, ncas, ncas, ncas, ncas)`. -/
def tdm2s_shape (nroots ncas : ℕ) : List ℕ :=
  [nroots, nroots, 4, ncas, ncas, ncas, ncas]

/-- The axis list of the third-pass adjoint update for the 2-body tensor,
line 424: `tdm2s += tdm1s.conj ().transpose (1,0,2,4,3,6,5)`.  Note the
operand of the transpose is `tdm1s`, whose rank is 5. -/
def third_pass_tdm2_axes : List ℕ := [1, 0, 2, 4, 3, 6, 5]

/-- Shape of the array bound to `d2` in `_crunch_1e`, line 280:
`d2 = tdm1s[bra,ket]`, i.e. the one-body tensor block of shape
`(2, ncas, ncas)` — not a block of `tdm2s`. -/
def crunch1e_d2_shape (nroots ncas : ℕ) : List ℕ := (tdm1s_shape nroots ncas).drop 2

/-- Number of subscripts used by every write of `_crunch_1e_tdm2`
(lines 296-299), e.g. `d2[s1a:s1b, i0:i1, j0:j1, k0:k1, k0:k1] = ...`. -/
def crunch1e_tdm2_write_nsub : ℕ := 5

/-- Rank of a stored `phh` intermediate: `np.stack` of `trans_rdm12s` 1-body
outputs (shape `(2, norb, norb)`) along a new last axis (lines 173-175),
giving rank 4. -/
def phh_entry_ndim : ℕ := 4

/-- Axis list applied by `get_pph` (line 98):
`self._phh[s][j][i].conj ().transpose (0,2,1)`. -/
def get_pph_axes : List ℕ := [0, 2, 1]

/-! ## The functional-identifier utility (_libxc.py)

`hybrid_coeff` and `rsh_coeff` are external collaborators from pyscf; their
outputs are modelled as arbitrary rationals (the float arithmetic involved
is a comparison of an absolute value against `1e-10`, faithfully represented
over `ℚ`). -/

/-- The tolerance `1e-10` of `is_hybrid_or_rsh` (_libxc.py line 71). -/
def xc_tol : ℚ := 1 / 10 ^ 10

/-- Embedding of `is_hybrid_or_rsh` (_libxc.py lines 68-72), applied to the
collaborator outputs `hyb = hybrid_coeff (xc_code)` and
`(omega, alpha, beta) = rsh_coeff (xc_code)`:
`non0 = [abs (x) > 1e-10 for x in (hyb, omega)]; return any (non0)`. -/
def is_hybrid_or_rsh (hyb omega alpha beta : ℚ) : Bool :=
  [decide (|hyb| > xc_tol), decide (|omega| > xc_tol)].any id

/-! ## Hopping classifier (lst_hopping_index, lines 8-42, and the
classification tensors of make_stdm12s, lines 243-254)

`counts f s r` is the number of electrons of spin `s` (0 = alpha, 1 = beta)
in fragment `f` for basis state `r` (the array `nelec_fsr` of line 35). -/

/-- The hopping index tensor (lines 37-38):
`hopping_index[f,s,b,k]` = count of spin `s` in fragment `f` for state `b`
minus that for state `k`. -/
def hoppingIndex {F R : ℕ} (counts : Fin F → Fin 2 → Fin R → ℕ)
    (f : Fin F) (s : Fin 2) (b k : Fin R) : ℤ :=
  (counts f s b : ℤ) - counts f s k

/-- `symm_index` (line 39): the total electron-count difference across all
fragments is zero for each spin independently. -/
def symm_index {F R : ℕ} (counts : Fin F → Fin 2 → Fin R → ℕ) (b k : Fin R) : Prop :=
  ∀ s : Fin 2, ∑ f : Fin F, hoppingIndex counts f s b k = 0

/-- `zerop_index` (line 40): `symm_index` and no nonzero entry of the hop
vector at all — a null excitation across the whole system. -/
def zerop_index {F R : ℕ} (counts : Fin F → Fin 2 → Fin R → ℕ) (b k : Fin R) : Prop :=
  symm_index counts b k ∧ ∀ (f : Fin F) (s : Fin 2), hoppingIndex counts f s b k = 0

/-- `onep_index` (line 41): `symm_index` and total absolute hop magnitude 2. -/
def onep_index {F R : ℕ} (counts : Fin F → Fin 2 → Fin R → ℕ) (b k : Fin R) : Prop :=
  symm_index counts b k ∧
    ∑ f : Fin F, ∑ s : Fin 2, (hoppingIndex counts f s b k).natAbs = 2

/-- The net (both-spin) hop of fragment `f` for a state pair:
`hopping_index.sum (1)` at `[f, b, k]`. -/
def net_hop {F R : ℕ} (counts : Fin F → Fin 2 → Fin R → ℕ) (f : Fin F) (b k : Fin R) : ℤ :=
  hoppingIndex counts f 0 b k + hoppingIndex counts f 1 b k

/-- `conserv_index` (line 244), exactly as written in the source:
`np.all (hopping_index.sum (1) == 0, axis=0)` — axis 1 is the spin axis, so
the condition is that every fragment's net (both-spin-combined) electron
count is unchanged. -/
def conserv_index {F R : ℕ} (counts : Fin F → Fin 2 → Fin R → ℕ) (b k : Fin R) : Prop :=
  ∀ f : Fin F, net_hop counts f b k = 0

/-- `nsop_index` (line 245): per-spin total absolute hop magnitude,
`np.abs (hopping_index).sum (0)`. -/
def nsop_index {F R : ℕ} (counts : Fin F → Fin 2 → Fin R → ℕ)
    (s : Fin 2) (b k : Fin R) : ℕ :=
  ∑ f : Fin F, (hoppingIndex counts f s b k).natAbs

/-- `nop_index` (line 246): total absolute hop magnitude over both spins,
`nsop_index.sum (0)`. -/
def nop_index {F R : ℕ} (counts : Fin F → Fin 2 → Fin R → ℕ) (b k : Fin R) : ℕ :=
  ∑ s : Fin 2, nsop_index counts s b k

/-- `nfrag_index` (line 247): the number of fragments with any nonzero hop,
`np.count_nonzero (np.abs (hopping_index).sum (1), axis=0)`. -/
def nfrag_index {F R : ℕ} (counts : Fin F → Fin 2 → Fin R → ℕ) (b k : Fin R) : ℕ :=
  (Finset.univ.filter
    (fun f : Fin F => (∑ s : Fin 2, (hoppingIndex counts f s b k).natAbs) ≠ 0)).card

/-- `ncharge_index` (line 248; the source line is malformed Python — a
keyword argument outside any call — and is read by its evident intent,
confirmed by the inline comment `= 0 for spin modes`): the number of
fragments whose net both-spin hop is nonzero. -/
def ncharge_index {F R : ℕ} (counts : Fin F → Fin 2 → Fin R → ℕ) (b k : Fin R) : ℕ :=
  (Finset.univ.filter (fun f : Fin F => net_hop counts f b k ≠ 0)).card

/-- `nspin_index` (line 249): `nsop_index[1,:,:] // 2`, the total absolute
beta-spin hop magnitude floor-divided by 2. -/
def nspin_index {F R : ℕ} (counts : Fin F → Fin 2 → Fin R → ℕ) (b k : Fin R) : ℕ :=
  nsop_index counts 1 b k / 2

instance {F R : ℕ} (counts : Fin F → Fin 2 → Fin R → ℕ) (b k : Fin R) :
    Decidable (symm_index counts b k) :=
  inferInstanceAs (Decidable (∀ s : Fin 2, ∑ f : Fin F, hoppingIndex counts f s b k = 0))

instance {F R : ℕ} (counts : Fin F → Fin 2 → Fin R → ℕ) (b k : Fin R) :
    Decidable (zerop_index counts b k) :=
  inferInstanceAs (Decidable (_ ∧ _))

instance {F R : ℕ} (counts : Fin F → Fin 2 → Fin R → ℕ) (b k : Fin R) :
    Decidable (conserv_index counts b k) :=
  inferInstanceAs (Decidable (∀ f : Fin F, net_hop counts f b k = 0))

/-- Spec-side quantity for comparison: the total absolute hop magnitude
summed over all fragments and both spins, in the claim's words.  (It equals
`nop_index` with the summation order exchanged; the claim asserts `opCount`
is HALF of this quantity.) -/
def spec_total_abs_hop {F R : ℕ} (counts : Fin F → Fin 2 → Fin R → ℕ) (b k : Fin R) : ℕ :=
  ∑ f : Fin F, ∑ s : Fin 2, (hoppingIndex counts f s b k).natAbs

/-! ## Assembly dispatch (second pass of make_stdm12s, lines 397-419)

The outcome of the dispatch chain for one state pair.  Line 407 reads
`elif nop_idnex[bra,ket] == 4:` — `nop_idnex` is an undefined name, so
evaluating that condition raises `NameError`.  Every conserving pair whose
`nop_index` is outside {0, 2} therefore aborts the invocation at line 407
(`nameErrorNopIdnex` below), and the entire subtree of lines 408-419 — the
spin-hop / pair-hop / pair-split / 2e rules, the bare `assert (spin == 1)`,
and the missing-default fall-through — is dead code.  The constructors for
those rules are retained so that `isTwoElectronRule` can state that the
staged dispatch never selects any of them.  A non-conserving pair is
skipped by the explicit `continue` (`notConserving` below). -/

inductive CrunchOutcome where
  | notConserving
  | nullRule
  | oneE (s : ℕ)
  | nameErrorNopIdnex
  | spinHop
  | assertFailed
  | pairHop (s : ℕ)
  | pairSplitFwd (s : ℕ)
  | pairSplitRev (s : ℕ)
  | twoE (s : ℕ)
  | noRule
deriving DecidableEq

/-- Whether a dispatch outcome is one of the two-electron assembly rules
(the rules of the dead lines 408-419: spin-hop, pair-hop, pair-split, 2e). -/
def CrunchOutcome.isTwoElectronRule : CrunchOutcome → Bool
  | .spinHop => true
  | .pairHop _ => true
  | .pairSplitFwd _ => true
  | .pairSplitRev _ => true
  | .twoE _ => true
  | _ => false

/-- The dispatch chain of the second pass (lines 399-419) exactly as
staged, for one state pair: `continue` on non-conserving pairs, the null
rule at `nop_index = 0`, the single-hop rule at `nop_index = 2`, and
otherwise the `NameError` raised by the undefined `nop_idnex` at line 407
before any further branch can be examined. -/
def crunch_dispatch {F R : ℕ} (counts : Fin F → Fin 2 → Fin R → ℕ)
    (b k : Fin R) : CrunchOutcome :=
  if ¬ conserv_index counts b k then .notConserving
  else if nop_index counts b k = 0 then .nullRule
  else if nop_index counts b k = 2 then .oneE (nspin_index counts b k)
  else .nameErrorNopIdnex

/-! ## The spectator step of LSTDMint.kernel (lines 140-150)

The kernel of fragment `ifrag` receives the slice `hopping_index[ifrag]`
(line 239); its spectator mask `np.all (hopping_index == 0, axis=0)`
(line 141) consults only this fragment's hops, then removes the strict
upper triangle (`np.triu_indices (nroots, k=1)`, line 142), keeping pairs
with `i >= j`.  Line 143 then stacks the two `np.where` coordinate arrays
on AXIS 0, producing an array of shape `(2, N)` where `N` is the number of
masked pairs, and line 144 iterates `for i, j in ...` over its 2 rows:
each row (length `N`) is tuple-unpacked into `(i, j)`, which raises
`ValueError` unless `N = 2`; when `N = 2` with masked pairs
`(i0, j0), (i1, j1)` in row-major order, the loop instead visits
`(i0, i1)` and `(j0, j1)` — the stacked coordinates transposed, in general
not masked pairs at all.  `trans_rdm12s` is requested (and dm1 stored,
with dm2 stored under `zerop_index`, line 150) only for the pairs the loop
actually visits. -/

/-- The spectator mask of fragment `f` after triangle removal (lines
141-142): the pair `(i, j)` has zero hop in fragment `f` for both spins,
and `i >= j`. -/
def spectator_index {F R : ℕ} (counts : Fin F → Fin 2 → Fin R → ℕ)
    (f : Fin F) (i j : Fin R) : Prop :=
  (∀ s : Fin 2, hoppingIndex counts f s i j = 0) ∧ j ≤ i

instance {F R : ℕ} (counts : Fin F → Fin 2 → Fin R → ℕ) (f : Fin F) (i j : Fin R) :
    Decidable (spectator_index counts f i j) :=
  inferInstanceAs (Decidable (_ ∧ _))

/-- The masked pairs of fragment `f` in row-major (`np.where`) order. -/
def spectator_mask_list {F R : ℕ} (counts : Fin F → Fin 2 → Fin R → ℕ)
    (f : Fin F) : List (Fin R × Fin R) :=
  (List.finRange R).flatMap (fun i =>
    ((List.finRange R).filter
      (fun j => decide (spectator_index counts f i j))).map (fun j => (i, j)))

/-- What the loop of line 144 does with the stacked coordinate array:
`ValueError` on the first row-unpack unless the mask holds exactly two
pairs `(i0, j0), (i1, j1)`, in which case the two visited pairs are
`(i0, i1)` and `(j0, j1)`. -/
inductive SpectatorLoopResult (R : ℕ) where
  | valueError
  | visited (p1 p2 : Fin R × Fin R)
deriving DecidableEq

/-- The spectator loop of fragment `f` exactly as staged (lines 143-144). -/
def spectator_loop_result {F R : ℕ} (counts : Fin F → Fin 2 → Fin R → ℕ)
    (f : Fin F) : SpectatorLoopResult R :=
  match spectator_mask_list counts f with
  | [(i0, j0), (i1, j1)] => SpectatorLoopResult.visited (i0, i1) (j0, j1)
  | _ => SpectatorLoopResult.valueError

/-- Pairs for which fragment `f`'s spectator step actually calls
`trans_rdm12s` (and stores the 1-body density, lines 145-149): the pairs
the staged loop visits — none at all when it raises `ValueError`. -/
def trans_rdm_requested {F R : ℕ} (counts : Fin F → Fin 2 → Fin R → ℕ)
    (f : Fin F) (p : Fin R × Fin R) : Prop :=
  ∃ q1 q2, spectator_loop_result counts f = SpectatorLoopResult.visited q1 q2 ∧
    (p = q1 ∨ p = q2)

/-- Pairs for which fragment `f`'s spectator step stores the 2-body density
(line 150): visited pairs that are additionally whole-system null
excitations (`zerop_index`, evaluated at the visited — possibly wrong —
pair). -/
def dm2_stored {F R : ℕ} (counts : Fin F → Fin 2 → Fin R → ℕ)
    (f : Fin F) (p : Fin R × Fin R) : Prop :=
  trans_rdm_requested counts f p ∧ zerop_index counts p.1 p.2

/-- The request condition as the claim states it (spec section 4.3 step 1):
pairs restricted to `bra >= ket` with zero hop in EVERY fragment for both
spins and overall conserving.  Stated for comparison with what the staged
code does. -/
def spec_claimed_spectator_request {F R : ℕ} (counts : Fin F → Fin 2 → Fin R → ℕ)
    (i j : Fin R) : Prop :=
  j ≤ i ∧ (∀ (f : Fin F) (s : Fin 2), hoppingIndex counts f s i j = 0) ∧
    symm_index counts i j

instance {F R : ℕ} (counts : Fin F → Fin 2 → Fin R → ℕ) (f : Fin F) (p : Fin R × Fin R) :
    Decidable (trans_rdm_requested counts f p) :=
  inferInstanceAs (Decidable (∃ q1 q2, _ ∧ _))

instance {F R : ℕ} (counts : Fin F → Fin 2 → Fin R → ℕ) (f : Fin F) (p : Fin R × Fin R) :
    Decidable (dm2_stored counts f p) :=
  inferInstanceAs (Decidable (_ ∧ _))

instance {F R : ℕ} (counts : Fin F → Fin 2 → Fin R → ℕ) (i j : Fin R) :
    Decidable (spec_claimed_spectator_request counts i j) :=
  inferInstanceAs (Decidable (_ ∧ _))

/-! ## Concrete electron-count configurations used as test inputs -/

/-- One fragment, two states: state 0 holds one alpha electron, state 1
holds one beta electron.  The pair (0,1) has hop vector `(1, -1)`:
fragment-net zero (so `conserv_index` holds) with total absolute hop
magnitude 2. -/
def ex_flip : Fin 1 → Fin 2 → Fin 2 → ℕ :=
  fun _ s r => if (s = 0) = (r = 0) then 1 else 0

/-- Two fragments, two states: a pure spin hop.  Fragment 0 goes from one
alpha (state 0) to one beta (state 1); fragment 1 the reverse.  The pair
(0,1) has hop tensor `[[1,-1],[-1,1]]`: conserving, `nop_index = 4`,
`ncharge_index = 0`. -/
def ex_spin_hop : Fin 2 → Fin 2 → Fin 2 → ℕ :=
  fun f s r => if (f = 0) = (s = 0) then (if r = 0 then 1 else 0)
    else (if r = 0 then 0 else 1)

/-- One fragment, two states: state 0 holds three alpha electrons, state 1
three beta electrons.  The pair (0,1) has hop vector `(3, -3)`: conserving
(fragment-net zero) with total absolute hop magnitude 6 — a combination
covered by no assembly rule. -/
def ex_triple : Fin 1 → Fin 2 → Fin 2 → ℕ :=
  fun _ s r => if (s = 0) = (r = 0) then 3 else 0

/-- Two fragments, two states: fragment 0 never changes, fragment 1 loses
its single alpha electron from state 0 to state 1.  For the pair (1,0),
fragment 0 has zero hop but fragment 1 does not. -/
def ex_partial_spectator : Fin 2 → Fin 2 → Fin 2 → ℕ :=
  fun f s r => if f = 1 ∧ s = 0 ∧ r = 0 then 1 else 0

/-! ## Fragment intermediate store (class LSTDMint, lines 44-134)

Amplitude entries live in an arbitrary type with a star operation
(`.conj ()` of the source).  Each cache family is a table of optional
entries, `none` standing for the `None` initial fill of `__init__`
(lines 57-62).  The stored value types follow the source:
`h` entries are vectors (length norb), `hh` and `sm` entries are
norb-square matrices, `phh` entries are the rank-4 stacks of lines 173-175
(shape `(2, norb, norb, norb)`), `dm1` entries have shape `(2, norb, norb)`
and `dm2` entries `(4, norb, norb, norb, norb)`. -/

structure LSTDMint (R n : ℕ) (K : Type) where
  hI : Fin 2 → Fin R → Fin R → Option (Fin n → K)
  hhI : Fin 3 → Fin R → Fin R → Option (Fin n → Fin n → K)
  phhI : Fin 2 → Fin R → Fin R → Option (Fin 2 → Fin n → Fin n → Fin n → K)
  smI : Fin R → Fin R → Option (Fin n → Fin n → K)
  dm1I : Fin R → Fin R → Option (Fin 2 → Fin n → Fin n → K)
  dm2I : Fin R → Fin R → Option (Fin 4 → Fin n → Fin n → Fin n → Fin n → K)

/-- Elementwise conjugate of a dm1-shaped entry followed by
`transpose (0, 2, 1)`, as in `set_dm1` (line 120). -/
def dm1_conj_transpose {n : ℕ} {K : Type} [Star K]
    (x : Fin 2 → Fin n → Fin n → K) : Fin 2 → Fin n → Fin n → K :=
  fun s p q => star (x s q p)

/-- Elementwise conjugate of a dm2-shaped entry followed by
`transpose (0, 2, 1, 4, 3)`, as in `set_dm2` (line 132). -/
def dm2_conj_transpose {n : ℕ} {K : Type} [Star K]
    (y : Fin 4 → Fin n → Fin n → Fin n → Fin n → K) :
    Fin 4 → Fin n → Fin n → Fin n → Fin n → K :=
  fun c p q r s => star (y c q p s r)

namespace LSTDMint

variable {R n : ℕ} {K : Type}

/-- `get_h` (lines 66-67): `self._h[s][i][j]`. -/
def get_h (st : LSTDMint R n K) (i j : Fin R) (s : Fin 2) : Option (Fin n → K) :=
  st.hI s i j

/-- `set_h` (lines 69-71): stores at exactly the given indices. -/
def set_h (st : LSTDMint R n K) (i j : Fin R) (s : Fin 2) (x : Fin n → K) :
    LSTDMint R n K :=
  { st with hI := fun s2 a b => if s2 = s ∧ a = i ∧ b = j then some x else st.hI s2 a b }

/-- `get_p` (lines 73-74): `self._h[s][j][i].conj ()`. -/
def get_p [Star K] (st : LSTDMint R n K) (i j : Fin R) (s : Fin 2) :
    Option (Fin n → K) :=
  (st.hI s j i).map (fun w => fun p => star (w p))

/-- `get_hh` (lines 78-79). -/
def get_hh (st : LSTDMint R n K) (i j : Fin R) (s : Fin 3) :
    Option (Fin n → Fin n → K) :=
  st.hhI s i j

/-- `set_hh` (lines 81-83). -/
def set_hh (st : LSTDMint R n K) (i j : Fin R) (s : Fin 3) (x : Fin n → Fin n → K) :
    LSTDMint R n K :=
  { st with hhI := fun s2 a b => if s2 = s ∧ a = i ∧ b = j then some x else st.hhI s2 a b }

/-- `get_pp` (lines 85-86): `self._hh[s][j][i].conj ().T`. -/
def get_pp [Star K] (st : LSTDMint R n K) (i j : Fin R) (s : Fin 3) :
    Option (Fin n → Fin n → K) :=
  (st.hhI s j i).map (fun M => fun q p => star (M p q))

/-- `get_phh` (lines 90-91). -/
def get_phh (st : LSTDMint R n K) (i j : Fin R) (s : Fin 2) :
    Option (Fin 2 → Fin n → Fin n → Fin n → K) :=
  st.phhI s i j

/-- `set_phh` (lines 93-95). -/
def set_phh (st : LSTDMint R n K) (i j : Fin R) (s : Fin 2)
    (x : Fin 2 → Fin n → Fin n → Fin n → K) : LSTDMint R n K :=
  { st with phhI := fun s2 a b => if s2 = s ∧ a = i ∧ b = j then some x else st.phhI s2 a b }

/-- `get_sm` (lines 102-103). -/
def get_sm (st : LSTDMint R n K) (i j : Fin R) : Option (Fin n → Fin n → K) :=
  st.smI i j

/-- `set_sm` (lines 105-107). -/
def set_sm (st : LSTDMint R n K) (i j : Fin R) (x : Fin n → Fin n → K) :
    LSTDMint R n K :=
  { st with smI := fun a b => if a = i ∧ b = j then some x else st.smI a b }

/-- `get_sp` (lines 109-110): `self._sm[j][i].conj ()` — elementwise
conjugate, no transpose. -/
def get_sp [Star K] (st : LSTDMint R n K) (i j : Fin R) : Option (Fin n → Fin n → K) :=
  (st.smI j i).map (fun M => fun p q => star (M p q))

/-- `get_dm1` (lines 114-116): returns `self.dm1[max (i,j)][min (i,j)]`
unchanged — no conjugate-transpose is applied on read. -/
def get_dm1 (st : LSTDMint R n K) (i j : Fin R) :
    Option (Fin 2 → Fin n → Fin n → K) :=
  st.dm1I (max i j) (min i j)

/-- `set_dm1` (lines 118-122): stores at `(j, i)` the conjugate-transpose
when `j > i`, otherwise stores `x` at `(i, j)`. -/
def set_dm1 [Star K] (st : LSTDMint R n K) (i j : Fin R)
    (x : Fin 2 → Fin n → Fin n → K) : LSTDMint R n K :=
  if i < j then
    { st with dm1I := fun a b =>
        if a = j ∧ b = i then some (dm1_conj_transpose x) else st.dm1I a b }
  else
    { st with dm1I := fun a b => if a = i ∧ b = j then some x else st.dm1I a b }

/-- `get_dm2` (lines 126-128): returns `self.dm2[max (i,j)][min (i,j)]`
unchanged. -/
def get_dm2 (st : LSTDMint R n K) (i j : Fin R) :
    Option (Fin 4 → Fin n → Fin n → Fin n → Fin n → K) :=
  st.dm2I (max i j) (min i j)

/-- `set_dm2` (lines 130-134). -/
def set_dm2 [Star K] (st : LSTDMint R n K) (i j : Fin R)
    (y : Fin 4 → Fin n → Fin n → Fin n → Fin n → K) : LSTDMint R n K :=
  if i < j then
    { st with dm2I := fun a b =>
        if a = j ∧ b = i then some (dm2_conj_transpose y) else st.dm2I a b }
  else
    { st with dm2I := fun a b => if a = i ∧ b = j then some y else st.dm2I a b }

end LSTDMint

/-! ## Same-spin 2-operator amplitudes and the pair-hop asserts -/

/-- Construction of a same-spin `hh` intermediate (alpha-alpha at lines
186-192, beta-beta at lines 212-218): the strict upper triangle `q < p` is
filled with the computed inner products `v q p` (in `combinations` order),
then `hh -= hh.T` antisymmetrizes.  `v` stands for the solver-derived inner
products, which are opaque here. -/
def build_hh_samespin {n : ℕ} {K : Type} [CommRing K]
    (v : Fin n → Fin n → K) : Fin n → Fin n → K :=
  fun q p => (if q < p then v q p else 0) - (if p < q then v p q else 0)

/-- The guard of the antisymmetry asserts in `_crunch_pair_hop` (lines 334
and 336) and `_crunch_pair_split` (line 360): the assert statement executes
only when `s2lt == 1`, i.e. only in the alpha-beta channel. -/
def pairhop_assert_checked (s2lt : Fin 3) : Bool :=
  decide (s2lt = 1)

/-- Truthiness of `np.all (arr)` for a numeric matrix: true when every
entry is nonzero. -/
def np_all_truthy {n : ℕ} {K : Type} [Zero K] [DecidableEq K]
    (M : Fin n → Fin n → K) : Bool :=
  decide (∀ q p : Fin n, M q p ≠ 0)

/-- The assert condition exactly as written at line 334:
`np.all (np.abs (pp + pp.T)) < 1e-8`.  By Python precedence this compares
the boolean `np.all (np.abs (pp + pp.T))` (true iff every entry is nonzero)
against `1e-8`, so the assert passes iff some entry of `M + M.T` is exactly
zero. -/
def pairhop_assert_passes {n : ℕ} {K : Type} [Add K] [Zero K] [DecidableEq K]
    (M : Fin n → Fin n → K) : Bool :=
  ! np_all_truthy (fun q p => M q p + M p q)

/-- A grossly non-antisymmetric matrix whose symmetrization nevertheless
has zeros on the diagonal: the as-written assert condition accepts it. -/
def Mbad : Fin 2 → Fin 2 → ℤ :=
  fun q p => if q = p then 0 else 5

/-! ## Control flow of LSTDMint.kernel (lines 136-220)

The kernel's steps, in program order, exactly as staged:
1. The spectator step (lines 140-150): after the mask of lines 141-142,
   line 143 stacks the `np.where` coordinate arrays on axis 0 (shape
   `(2, N)`) and line 144 row-unpacks, raising `ValueError` unless `N`,
   the number of masked pairs, is exactly 2; when `N = 2` the loop body
   runs on the two transposed-coordinate pairs, calling the external
   solver (modelled as succeeding) and storing dm1/dm2.
2. The cached beta-annihilation loop (lines 156-158) iterates the kets
   with a departing beta electron; its guard at line 157,
   `np.any (np.all (hopping_index[:,:,ket] == [1,-1]), axis=1)`, reduces
   `np.all` with no axis to a scalar and then asks `np.any` for axis 1 of
   a 0-d array, so it raises `AxisError` on the first iteration — the
   loop errors as soon as `hidx_ket_b` is nonempty.
3. The alpha loop (lines 161-163) reads `self.ci` unconditionally for any
   ket with a departing alpha electron — an attribute that `__init__`
   (lines 48-62) and every other method never assign (the amplitude
   vectors are only ever passed as the kernel's `ci` argument, used solely
   in the spectator step, line 148) — raising `AttributeError`.
4. The beta loop (lines 195-198) likewise reads `self.ci` for any ket
   with a departing beta electron (unreachable: step 2 errors first).
Each error aborts the call; the `ok` outcome requires the spectator mask
to have exactly two entries AND no departing electrons of either spin —
conditions proved contradictory below, so the staged kernel never runs to
completion. -/

/-- Per-fragment hopping slice `hopping_index[ifrag]` built from this
fragment's per-spin, per-state electron counts `nf`. -/
def hop_frag {R : ℕ} (nf : Fin 2 → Fin R → ℕ) (s : Fin 2) (b k : Fin R) : ℤ :=
  (nf s b : ℤ) - nf s k

/-- `hidx_ket_a` (line 153): kets from which an alpha electron departs
toward some bra. -/
def hidx_ket_a {R : ℕ} (nf : Fin 2 → Fin R → ℕ) : Finset (Fin R) :=
  Finset.univ.filter (fun ket => ∃ bra, hop_frag nf 0 bra ket < 0)

/-- `hidx_ket_b` (line 154): kets from which a beta electron departs. -/
def hidx_ket_b {R : ℕ} (nf : Fin 2 → Fin R → ℕ) : Finset (Fin R) :=
  Finset.univ.filter (fun ket => ∃ bra, hop_frag nf 1 bra ket < 0)

/-- The kernel-level spectator mask on the fragment's slice (lines
141-142), as the set of masked pairs; its cardinality is the `N` of the
shape-(2, N) stack at line 143. -/
def kernel_spectator_mask {R : ℕ} (nf : Fin 2 → Fin R → ℕ) :
    Finset (Fin R × Fin R) :=
  Finset.univ.filter
    (fun p : Fin R × Fin R => (∀ s : Fin 2, hop_frag nf s p.1 p.2 = 0) ∧ p.2 ≤ p.1)

inductive KernelErr where
  | valueErrorUnpack
  | axisError
  | missingCiAttr
deriving DecidableEq

/-- Reachable control flow of `LSTDMint.kernel` for one fragment, exactly
as staged: `ValueError` at the line-144 row-unpack unless the spectator
mask has exactly two entries; then `AxisError` at line 157 if any ket has
a departing beta electron; then `AttributeError` at the line-163 `self.ci`
read if any ket has a departing alpha electron; the final beta loop
(line 197's `self.ci` read) is dead code given the line-157 error. -/
def lstdmint_kernel_run {R : ℕ} (nf : Fin 2 → Fin R → ℕ) : Except KernelErr Unit :=
  if (kernel_spectator_mask nf).card ≠ 2 then .error .valueErrorUnpack
  else if (hidx_ket_b nf).Nonempty then .error .axisError
  else if (hidx_ket_a nf).Nonempty then .error .missingCiAttr
  else if (hidx_ket_b nf).Nonempty then .error .missingCiAttr
  else .ok ()

/-- Two states whose alpha counts differ: state 1 holds the alpha electron
that departs toward state 0. -/
def nf_departure : Fin 2 → Fin 2 → ℕ :=
  fun s r => if s = 0 ∧ r = 1 then 1 else 0

/-! ## Concrete store data for the accessor theorems -/

/-- A minimal complex-like scalar type with decidable equality; `star`
negates the imaginary part. -/
structure CNum where
  re : ℤ
  im : ℤ
deriving DecidableEq

instance : Star CNum := ⟨fun z => ⟨z.re, -z.im⟩⟩

/-- A dm1-shaped entry all of whose components are the imaginary unit. -/
def dm1_ex : Fin 2 → Fin 1 → Fin 1 → CNum := fun _ _ _ => ⟨0, 1⟩

/-- An empty two-state, one-orbital store. -/
def st_empty : LSTDMint 2 1 CNum :=
  ⟨fun _ _ _ => none, fun _ _ _ => none, fun _ _ _ => none,
    fun _ _ => none, fun _ _ => none, fun _ _ => none⟩

/-- The store after the kernel-style call `set_dm1 (1, 0, dm1_ex)`
(bra = 1 ≥ ket = 0, as the spectator step always calls it). -/
def st_ex : LSTDMint 2 1 CNum := LSTDMint.set_dm1 st_empty 1 0 dm1_ex

/-! ## Helper lemmas -/

/-- A family of integers summing to zero has an even total absolute value. -/
theorem even_sum_natAbs {F : ℕ} (g : Fin F → ℤ) (h : ∑ f : Fin F, g f = 0) :
    Even (∑ f : Fin F, (g f).natAbs) := by
  have key : Even (∑ f : Fin F, (|g f| - g f)) := by
    refine Finset.sum_induction _ Even (fun a b ha hb => ha.add hb) even_zero ?_
    intro x _
    rcases abs_cases (g x) with h1 | h1
    · rw [h1.1, sub_self]
      exact even_zero
    · rw [h1.1]
      exact ⟨-(g x), by ring⟩
  have hsplit : ∑ f : Fin F, (|g f| - g f) =
      (∑ f : Fin F, |g f|) - ∑ f : Fin F, g f := Finset.sum_sub_distrib
  rw [hsplit, h, sub_zero] at key
  have hcast : (∑ f : Fin F, |g f|) = ((∑ f : Fin F, (g f).natAbs : ℕ) : ℤ) := by
    push_cast
    exact Finset.sum_congr rfl (fun f _ => rfl)
  rw [hcast] at key
  exact (Int.even_coe_nat _).mp key

/-- Under `conserv_index` as written (line 244), each fragment's beta hop is
the negative of its alpha hop. -/
theorem conserv_hop1_neg {F R : ℕ} (counts : Fin F → Fin 2 → Fin R → ℕ) (b k : Fin R)
    (h : conserv_index counts b k) (f : Fin F) :
    hoppingIndex counts f 1 b k = -hoppingIndex counts f 0 b k := by
  have hf := h f
  unfold net_hop at hf
  omega

/-- Under `conserv_index`, the two per-spin absolute magnitudes agree. -/
theorem conserv_nsop_eq {F R : ℕ} (counts : Fin F → Fin 2 → Fin R → ℕ) (b k : Fin R)
    (h : conserv_index counts b k) :
    nsop_index counts 1 b k = nsop_index counts 0 b k := by
  unfold nsop_index
  refine Finset.sum_congr rfl (fun f _ => ?_)
  rw [conserv_hop1_neg counts b k h f, Int.natAbs_neg]

/-- Under `conserv_index`, `nop_index` is twice the alpha magnitude. -/
theorem conserv_nop_twice {F R : ℕ} (counts : Fin F → Fin 2 → Fin R → ℕ) (b k : Fin R)
    (h : conserv_index counts b k) :
    nop_index counts b k = 2 * nsop_index counts 0 b k := by
  unfold nop_index
  rw [Fin.sum_univ_two, conserv_nsop_eq counts b k h]
  omega

/-- The number of lower-triangle pairs of `Fin R` (diagonal included) is
never 2: it is at most 1 when `R` is at most 1, and at least 3 otherwise. -/
theorem card_lower_triangle_ne_two {R : ℕ} :
    (Finset.univ.filter (fun p : Fin R × Fin R => p.2 ≤ p.1)).card ≠ 2 := by
  rcases R with _ | _ | n
  · decide
  · decide
  · intro h2
    have h01 : (0 : Fin (n + 2)) ≠ 1 := by
      intro h
      have hv := congrArg Fin.val h
      simp at hv
    have hsub : ({((1 : Fin (n + 2)), (0 : Fin (n + 2))), (0, 0), (1, 1)} :
        Finset (Fin (n + 2) × Fin (n + 2))) ⊆
        Finset.univ.filter (fun p : Fin (n + 2) × Fin (n + 2) => p.2 ≤ p.1) := by
      intro p hp
      simp only [Finset.mem_insert, Finset.mem_singleton] at hp
      rcases hp with h | h | h <;> subst h
      · exact Finset.mem_filter.mpr ⟨Finset.mem_univ _, Fin.zero_le _⟩
      · exact Finset.mem_filter.mpr ⟨Finset.mem_univ _, le_refl _⟩
      · exact Finset.mem_filter.mpr ⟨Finset.mem_univ _, le_refl _⟩
    have hcard : ({((1 : Fin (n + 2)), (0 : Fin (n + 2))), (0, 0), (1, 1)} :
        Finset (Fin (n + 2) × Fin (n + 2))).card = 3 := by
      rw [Finset.card_insert_of_not_mem (by simp [Prod.ext_iff, h01.symm]),
        Finset.card_insert_of_not_mem (by simp [Prod.ext_iff, h01]),
        Finset.card_singleton]
    have hle := Finset.card_le_card hsub
    rw [hcard, h2] at hle
    omega

/-! ## Claim theorems -/

/-- C10: for every pair of collaborator outputs, `is_hybrid_or_rsh` returns
true iff the hybrid coefficient or the range-separation parameter omega
exceeds `1e-10` in absolute value, and the alpha and beta components of the
range-separation triple never affect the result. -/
theorem is_hybrid_or_rsh_characterization (hyb omega alpha beta alpha2 beta2 : ℚ) :
    (is_hybrid_or_rsh hyb omega alpha beta = true ↔ |hyb| > xc_tol ∨ |omega| > xc_tol)
    ∧ is_hybrid_or_rsh hyb omega alpha beta = is_hybrid_or_rsh hyb omega alpha2 beta2 := by
  constructor
  · simp [is_hybrid_or_rsh]
  · rfl

/-- C8: for every state pair that conserves each spin's total electron count
(`symm_index`, the spec's notion of conserving) and has transition order 1
or 2 (`nop_index` 2 or 4), `nspin_index` equals half the total absolute
beta hop magnitude, and classifies the spin channel: 0 for pure-alpha
transitions, 1 for mixed alpha-beta transitions (and for the single-beta
hop, the `b`-channel of the source comment), 2 for the double-beta
transition; it never exceeds 2. -/
theorem nspin_index_spin_channel {F R : ℕ} (counts : Fin F → Fin 2 → Fin R → ℕ)
    (b k : Fin R) (hsym : symm_index counts b k)
    (hord : nop_index counts b k = 2 ∨ nop_index counts b k = 4) :
    nspin_index counts b k = nsop_index counts 1 b k / 2
    ∧ (nsop_index counts 1 b k = 0 → nspin_index counts b k = 0)
    ∧ (nsop_index counts 0 b k ≠ 0 → nsop_index counts 1 b k ≠ 0 →
        nspin_index counts b k = 1)
    ∧ (nsop_index counts 0 b k = 0 → nop_index counts b k = 4 →
        nspin_index counts b k = 2)
    ∧ (nsop_index counts 0 b k = 0 → nop_index counts b k = 2 →
        nspin_index counts b k = 1)
    ∧ nspin_index counts b k ≤ 2 := by
  obtain ⟨a2, ha⟩ := even_sum_natAbs (fun f => hoppingIndex counts f 0 b k) (hsym 0)
  obtain ⟨b2, hb⟩ := even_sum_natAbs (fun f => hoppingIndex counts f 1 b k) (hsym 1)
  have hA : nsop_index counts 0 b k = a2 + a2 := ha
  have hB : nsop_index counts 1 b k = b2 + b2 := hb
  have hnop : nop_index counts b k = nsop_index counts 0 b k + nsop_index counts 1 b k := by
    unfold nop_index
    rw [Fin.sum_univ_two]
  refine ⟨rfl, fun h1 => ?_, fun h1 h2 => ?_, fun h1 h2 => ?_, fun h1 h2 => ?_, ?_⟩ <;>
    unfold nspin_index <;> omega

/-- Witness for C8 at the concrete mixed spin-hop pair of `ex_spin_hop`:
both hypotheses hold there and the channel comes out 1 (alpha-beta). -/
theorem nspin_index_spin_channel_witness : nspin_index ex_spin_hop 0 1 = 1 :=
  (nspin_index_spin_channel ex_spin_hop 0 1 (by decide) (by decide)).2.2.1
    (by decide) (by decide)

/-- C2 counterexample: at the conserving order-1 pair of `ex_flip` the
total absolute hop magnitude is 2 and its half is 1, but `opCount`
(`nop_index`) is 2, not 1 — `opCount` is the total, not half of it. -/
theorem nop_index_not_half_total :
    nop_index ex_flip 0 1 = 2
    ∧ spec_total_abs_hop ex_flip 0 1 / 2 = 1
    ∧ nop_index ex_flip 0 1 ≠ spec_total_abs_hop ex_flip 0 1 / 2 := by
  decide

/-- C2 (amended): `opCount` (`nop_index`) equals the TOTAL absolute hop
magnitude summed over all fragments and both spins (not half of it); for
conserving pairs it is even, hence takes only the values 0, 2, 4 when the
transition order is at most 2; the dispatch selects the null rule exactly
at 0 and the single-hop rule exactly at 2; and at `opCount = 4` no
two-electron rule — indeed no rule at all — is ever selected: the staged
dispatch never produces a two-electron-rule outcome, every conserving pair
with `opCount` outside {0, 2} aborting at line 407's undefined
`nop_idnex`. -/
theorem nop_index_total_and_dispatch {F R : ℕ} (counts : Fin F → Fin 2 → Fin R → ℕ)
    (b k : Fin R) :
    nop_index counts b k = spec_total_abs_hop counts b k
    ∧ (conserv_index counts b k → nop_index counts b k = 2 * nsop_index counts 0 b k)
    ∧ (conserv_index counts b k → nop_index counts b k ≤ 4 →
        nop_index counts b k = 0 ∨ nop_index counts b k = 2 ∨ nop_index counts b k = 4)
    ∧ (crunch_dispatch counts b k = CrunchOutcome.nullRule ↔
        conserv_index counts b k ∧ nop_index counts b k = 0)
    ∧ (crunch_dispatch counts b k = CrunchOutcome.oneE (nspin_index counts b k) ↔
        conserv_index counts b k ∧ nop_index counts b k = 2)
    ∧ (crunch_dispatch counts b k).isTwoElectronRule = false := by
  refine ⟨?_, conserv_nop_twice counts b k, ?_, ?_, ?_, ?_⟩
  · unfold nop_index nsop_index spec_total_abs_hop
    exact Finset.sum_comm
  · intro hc h4
    have := conserv_nop_twice counts b k hc
    omega
  · constructor
    · intro hd
      unfold crunch_dispatch at hd
      split_ifs at hd with hnc h0 h2
      exact ⟨hnc, h0⟩
    · rintro ⟨hc, h0⟩
      unfold crunch_dispatch
      rw [if_neg (not_not_intro hc), if_pos h0]
  · constructor
    · intro hd
      unfold crunch_dispatch at hd
      split_ifs at hd with hnc h0 h2
      exact ⟨hnc, h2⟩
    · rintro ⟨hc, h2⟩
      unfold crunch_dispatch
      have h0 : nop_index counts b k ≠ 0 := by omega
      rw [if_neg (not_not_intro hc), if_neg h0, if_pos h2]
  · unfold crunch_dispatch
    split_ifs <;> rfl

/-- Witness for C2's amended theorem at the concrete conserving pair of
`ex_flip`: its `opCount` is twice the alpha magnitude. -/
theorem nop_index_total_and_dispatch_witness :
    nop_index ex_flip 0 1 = 2 * nsop_index ex_flip 0 0 1 :=
  (nop_index_total_and_dispatch ex_flip 0 1).2.1 (by decide)

/-- C3 counterexample: the pair (0,1) of `ex_triple` is conserving with
total hop magnitude 6 — a classification covered by no assembly rule — yet
the staged dispatch aborts with the NameError raised by the undefined
`nop_idnex` at line 407, an error that names only the misspelled
identifier and carries no state pair and no hop vector; the very same bare
error is raised at the COVERED spin-hop pair of `ex_spin_hop`
(`opCount = 4`), so it cannot be the claimed report of an unsupported
pattern. -/
theorem dispatch_name_error_example :
    conserv_index ex_triple 0 1
    ∧ nop_index ex_triple 0 1 = 6
    ∧ crunch_dispatch ex_triple 0 1 = CrunchOutcome.nameErrorNopIdnex
    ∧ conserv_index ex_spin_hop 0 1
    ∧ nop_index ex_spin_hop 0 1 = 4
    ∧ crunch_dispatch ex_spin_hop 0 1 = CrunchOutcome.nameErrorNopIdnex := by
  refine ⟨by decide, by decide, by decide, by decide, by decide, by decide⟩

/-- C3 (amended): the staged dispatch aborts with line 407's NameError
exactly for the conserving pairs with `opCount` outside {0, 2} — the
uncovered combinations among them, but equally the covered two-electron
ones — so an uncovered combination is indeed fatal with no partial result,
yet by accident of the misspelled `nop_idnex`, not by the designed check,
and the error reports neither the offending state pair nor its hop
vector. -/
theorem dispatch_name_error_characterization {F R : ℕ}
    (counts : Fin F → Fin 2 → Fin R → ℕ) (b k : Fin R) :
    crunch_dispatch counts b k = CrunchOutcome.nameErrorNopIdnex ↔
      conserv_index counts b k ∧
        ¬(nop_index counts b k = 0 ∨ nop_index counts b k = 2) := by
  constructor
  · intro hd
    unfold crunch_dispatch at hd
    split_ifs at hd with hnc h0 h2
    exact ⟨hnc, fun h => h.elim h0 h2⟩
  · rintro ⟨hc, hn⟩
    push_neg at hn
    unfold crunch_dispatch
    rw [if_neg (not_not_intro hc), if_neg hn.1, if_neg hn.2]

/-- C1: the third-pass adjoint update for the 2-body tensor (line 424)
transposes `tdm1s` — a rank-5 array — with the 7-entry axis list
`(1,0,2,4,3,6,5)`, which numpy rejects; the pass therefore cannot produce
the claimed TDM2 symmetry (the operand should have been `tdm2s`). -/
theorem make_stdm12s_third_pass_tdm2_adjoint_invalid (nroots ncas : ℕ) :
    npTransposeValid (tdm1s_shape nroots ncas).length third_pass_tdm2_axes = false := by
  rfl

/-- C4: in `_crunch_1e` the name `d2` is bound to `tdm1s[bra,ket]`
(line 280), a rank-3 block of the 1-body tensor, while every write of
`_crunch_1e_tdm2` uses 5 subscripts — the 2-body data targets the 1-body
tensor and the writes are rank-invalid. -/
theorem crunch_1e_tdm2_writes_rank_invalid (nroots ncas : ℕ) :
    npSubscriptCountValid (crunch1e_d2_shape nroots ncas).length
      crunch1e_tdm2_write_nsub = false := by
  rfl

/-- C5 counterexample: after the kernel-style store `set_dm1 (1, 0, x)`,
the accessor at the complementary ordering, `get_dm1 (0, 1)`, returns the
stored value unchanged — not its conjugate-transpose as claimed. -/
theorem get_dm1_no_conj_transpose_on_read :
    LSTDMint.get_dm1 st_ex 0 1 = some dm1_ex
    ∧ LSTDMint.get_dm1 st_ex 0 1 ≠ some (dm1_conj_transpose dm1_ex) := by
  refine ⟨by decide, by decide⟩

/-- C5 (amended): the adjoint accessors `get_p`, `get_pp`, `get_sp` derive
their value on the fly from the stored table at swapped indices by
conjugation (plus a transpose for `get_pp`); `get_dm1`/`get_dm2` read the
entry at `(max, min)` unchanged (no conjugate-transpose on read);
`set_dm1`/`set_dm2` write only the lower-triangle key `(max, min)`,
applying the conjugate-transpose at set time when called with `ket > bra`,
and leave every other entry untouched; `set_h` stores at exactly the given
index pair with no ordering restriction; and the `get_pph` accessor's
`transpose (0,2,1)` is rank-invalid against the rank-4 stored `phh`
entries.  No accessor computes new intermediates or mutates the store. -/
theorem lstdmint_accessor_rules {R n : ℕ} {K : Type} [Star K]
    (st : LSTDMint R n K) (i j k l : Fin R) (s : Fin 2) (c : Fin 3)
    (x : Fin 2 → Fin n → Fin n → K)
    (y : Fin 4 → Fin n → Fin n → Fin n → Fin n → K) (v : Fin n → K) :
    LSTDMint.get_p st i j s = (LSTDMint.get_h st j i s).map (fun w => fun p => star (w p))
    ∧ LSTDMint.get_pp st i j c =
        (LSTDMint.get_hh st j i c).map (fun M => fun q p => star (M p q))
    ∧ LSTDMint.get_sp st i j =
        (LSTDMint.get_sm st j i).map (fun M => fun p q => star (M p q))
    ∧ LSTDMint.get_dm1 st i j = st.dm1I (max i j) (min i j)
    ∧ LSTDMint.get_dm2 st i j = st.dm2I (max i j) (min i j)
    ∧ ((LSTDMint.set_dm1 st i j x).dm1I k l =
        if k = max i j ∧ l = min i j then
          some (if i < j then dm1_conj_transpose x else x)
        else st.dm1I k l)
    ∧ ((LSTDMint.set_dm2 st i j y).dm2I k l =
        if k = max i j ∧ l = min i j then
          some (if i < j then dm2_conj_transpose y else y)
        else st.dm2I k l)
    ∧ (LSTDMint.set_h st i j s v).hI s i j = some v
    ∧ npTransposeValid phh_entry_ndim get_pph_axes = false := by
  refine ⟨rfl, rfl, rfl, rfl, rfl, ?_, ?_, ?_, rfl⟩
  · unfold LSTDMint.set_dm1
    by_cases hij : i < j
    · rw [if_pos hij, if_pos hij, max_eq_right hij.le, min_eq_left hij.le]
    · have hji : j ≤ i := le_of_not_lt hij
      rw [if_neg hij, if_neg hij, max_eq_left hji, min_eq_right hji]
  · unfold LSTDMint.set_dm2
    by_cases hij : i < j
    · rw [if_pos hij, if_pos hij, max_eq_right hij.le, min_eq_left hij.le]
    · have hji : j ≤ i := le_of_not_lt hij
      rw [if_neg hij, if_neg hij, max_eq_left hji, min_eq_right hji]
  · simp [LSTDMint.set_h]

/-- C6 counterexample: the pair (0,0) of `ex_partial_spectator` satisfies
the claim's request condition (bra >= ket, zero hop in every fragment,
conserving), yet fragment 0's spectator step makes no `trans_rdm12s`
request at all: its mask holds three pairs, so the row-unpack of line 144
raises `ValueError` before any request — the builder does not request
"exactly" the claimed pairs. -/
theorem spectator_requests_not_as_claimed :
    spec_claimed_spectator_request ex_partial_spectator (0 : Fin 2) (0 : Fin 2)
    ∧ spectator_loop_result ex_partial_spectator 0 = SpectatorLoopResult.valueError
    ∧ ∀ p : Fin 2 × Fin 2, ¬ trans_rdm_requested ex_partial_spectator 0 p := by
  refine ⟨by decide, by decide, by decide⟩

/-- C6 (amended): the spectator mask of fragment `f` (enumerated row-major
by `spectator_mask_list`) selects the pairs with zero hop in THIS fragment
for both spins, restricted to bra >= ket — but the staged loop never
requests those pairs: it raises `ValueError` (requesting nothing) unless
the mask holds exactly two pairs, and when it holds exactly
`(i0, j0), (i1, j1)` it requests the transition density for `(i0, i1)` and
`(j0, j1)` — the stacked coordinates transposed, in general not masked
pairs — storing the 2-body density for such a visited pair only when it is
a whole-system null excitation. -/
theorem spectator_loop_characterization {F R : ℕ}
    (counts : Fin F → Fin 2 → Fin R → ℕ) (f : Fin F) :
    (∀ i j : Fin R, (i, j) ∈ spectator_mask_list counts f ↔ spectator_index counts f i j)
    ∧ (spectator_loop_result counts f = SpectatorLoopResult.valueError ↔
        (spectator_mask_list counts f).length ≠ 2)
    ∧ (∀ q1 q2 : Fin R × Fin R,
        spectator_loop_result counts f = SpectatorLoopResult.visited q1 q2 →
          spectator_mask_list counts f = [(q1.1, q2.1), (q1.2, q2.2)])
    ∧ (∀ p : Fin R × Fin R, dm2_stored counts f p ↔
        trans_rdm_requested counts f p ∧
          ∀ (f2 : Fin F) (s : Fin 2), hoppingIndex counts f2 s p.1 p.2 = 0) := by
  refine ⟨?_, ?_, ?_, ?_⟩
  · intro i j
    simp [spectator_mask_list, List.mem_flatMap, List.mem_filter, List.mem_finRange]
  · rcases hl : spectator_mask_list counts f with _ | ⟨⟨i0, j0⟩, t⟩
    · unfold spectator_loop_result
      rw [hl]
      simp
    · rcases t with _ | ⟨⟨i1, j1⟩, t2⟩
      · unfold spectator_loop_result
        rw [hl]
        simp
      · rcases t2 with _ | ⟨p3, t3⟩
        · unfold spectator_loop_result
          rw [hl]
          simp
        · unfold spectator_loop_result
          rw [hl]
          simp
  · intro q1 q2 hv
    unfold spectator_loop_result at hv
    rcases hl : spectator_mask_list counts f with _ | ⟨⟨i0, j0⟩, t⟩
    · rw [hl] at hv
      simp at hv
    · rcases t with _ | ⟨⟨i1, j1⟩, t2⟩
      · rw [hl] at hv
        simp at hv
      · rcases t2 with _ | ⟨p3, t3⟩
        · rw [hl] at hv
          simp at hv
          obtain ⟨hq1, hq2⟩ := hv
          subst hq1
          subst hq2
          rfl
        · rw [hl] at hv
          simp at hv
  · intro p
    unfold dm2_stored zerop_index
    constructor
    · rintro ⟨hreq, _, hall⟩
      exact ⟨hreq, hall⟩
    · rintro ⟨hreq, hall⟩
      refine ⟨hreq, ?_, hall⟩
      intro s
      exact Finset.sum_eq_zero (fun f2 _ => hall f2 s)

/-- Witness for C6's amended theorem at fragment 1 of
`ex_partial_spectator`: its mask holds exactly the two diagonal pairs
(0,0) and (1,1), and the staged loop visits (0,1) twice — an
upper-triangle pair with a nonzero hop that the mask had excluded. -/
theorem spectator_loop_characterization_witness :
    spectator_mask_list ex_partial_spectator 1 =
      [((0 : Fin 2), (0 : Fin 2)), (1, 1)] :=
  (spectator_loop_characterization ex_partial_spectator 1).2.2.1
    (0, 1) (0, 1) (by decide)

/-- C7: the same-spin 2-operator intermediates are exactly antisymmetric by
construction (`hh -= hh.T`, lines 186-192 and 212-218), so the claimed
relation `M + M.T = 0` holds with no tolerance needed; but the asserts
meant to detect violations (lines 334, 336, 360) execute only in the
alpha-beta channel (`s2lt == 1`), never for the same-spin channels 0 and 2,
and the as-written condition accepts any matrix whose symmetrization has a
single zero entry — such as `Mbad`, which grossly violates antisymmetry. -/
theorem samespin_hh_antisymmetric_check_misdirected {n : ℕ} {K : Type} [CommRing K]
    (v : Fin n → Fin n → K) (q p : Fin n) :
    build_hh_samespin v q p + build_hh_samespin v p q = 0
    ∧ pairhop_assert_checked 0 = false
    ∧ pairhop_assert_checked 2 = false
    ∧ pairhop_assert_passes Mbad = true
    ∧ Mbad 0 1 + Mbad 1 0 ≠ 0 := by
  refine ⟨?_, by decide, by decide, by decide, by decide⟩
  unfold build_hh_samespin
  ring

/-- C9: every operator-application step of `LSTDMint.kernel` reads the
amplitude vectors through `self.ci`, an attribute the constructor and
every other method never assign (the `ci` argument is used solely in the
spectator step), so a fragment in which some state has a departing alpha
or beta electron can never complete the kernel: completion requires no
departures.  In fact, as staged, the kernel completes for no fragment at
all: the `ok` path also requires the spectator mask of lines 141-143 to
hold exactly two pairs, while a no-departure fragment has an all-zero hop
slice whose mask is the full lower triangle — never of size 2. -/
theorem lstdmint_kernel_completion_requires_no_departures {R : ℕ}
    (nf : Fin 2 → Fin R → ℕ) :
    (∀ (s : Fin 2) (b k : Fin R), hop_frag nf s b k < 0 →
        lstdmint_kernel_run nf ≠ Except.ok ())
    ∧ lstdmint_kernel_run nf ≠ Except.ok () := by
  have hmain : lstdmint_kernel_run nf ≠ Except.ok () := by
    unfold lstdmint_kernel_run
    split_ifs with hN hb ha
    · simp
    · simp
    · simp
    · intro _
      have hz : ∀ (s : Fin 2) (b k : Fin R), hop_frag nf s b k = 0 := by
        intro s b k
        have key : ∀ b2 k2 : Fin R, ¬ hop_frag nf s b2 k2 < 0 := by
          intro b2 k2 hlt
          fin_cases s
          · exact ha ⟨k2, by
              unfold hidx_ket_a
              exact Finset.mem_filter.mpr ⟨Finset.mem_univ k2, ⟨b2, hlt⟩⟩⟩
          · exact hb ⟨k2, by
              unfold hidx_ket_b
              exact Finset.mem_filter.mpr ⟨Finset.mem_univ k2, ⟨b2, hlt⟩⟩⟩
        have h1 := key b k
        have h2 := key k b
        unfold hop_frag at h1 h2 ⊢
        omega
      have hmask : kernel_spectator_mask nf =
          Finset.univ.filter (fun p : Fin R × Fin R => p.2 ≤ p.1) := by
        unfold kernel_spectator_mask
        apply Finset.filter_congr
        intro p _
        simp [hz]
      have hN2 : (kernel_spectator_mask nf).card = 2 := not_not.mp hN
      rw [hmask] at hN2
      exact card_lower_triangle_ne_two hN2
  exact ⟨fun _ _ _ _ => hmain, hmain⟩

/-- Witness for C9 at the concrete fragment `nf_departure`, whose state 1
has a departing alpha electron: the kernel cannot complete there. -/
theorem lstdmint_kernel_completion_requires_no_departures_witness :
    lstdmint_kernel_run nf_departure ≠ Except.ok () :=
  (lstdmint_kernel_completion_requires_no_departures nf_departure).1 0 0 1 (by decide)
